import Mathlib

/-!
Verification of the qjs-rs lexical scanner (`src/lexer/`).

The Rust sources are shallowly embedded: the source reader (`reader/inline.rs`)
is modelled as a `List Char` cursor (`current` is the head, `lookahead` the
second element, `next n` drops `n` characters), the mutable `Lexer` struct of
`lexer.rs` becomes an explicit state record threaded through every function,
and each `loop` of the source becomes a fuel-indexed recursion whose fuel is
chosen at the loop entry as `input.length + 1`; a loop iteration of the source
that consumes no input (which makes the Rust code spin forever) surfaces as
the distinguished `LexRes.hang` outcome.
-/

namespace Qjs

/-! ## code_points.rs -/

/-- Port of `code_points::is_line_terminator`: LF, CR, LS, PS. -/
def is_line_terminator (c : Char) : Bool :=
  c = '\u000a' || c = '\u000d' || c = '\u2028' || c = '\u2029'

/-- Models the Rust standard library's `char::is_whitespace`, which tests the
Unicode `White_Space` property (this is what `code_points::is_whitespace`
falls back to in its default arm). -/
def rust_char_is_whitespace (c : Char) : Bool :=
  let n := c.toNat
  n = 0x09 || n = 0x0a || n = 0x0b || n = 0x0c || n = 0x0d ||
  n = 0x20 || n = 0x85 || n = 0xa0 || n = 0x1680 ||
  (0x2000 ≤ n && n ≤ 0x200a) ||
  n = 0x2028 || n = 0x2029 || n = 0x202f || n = 0x205f || n = 0x3000

/-- Port of `code_points::is_whitespace`: TAB, VT, FF, ZWNBSP explicitly,
anything else deferred to Rust's `char::is_whitespace`. -/
def is_whitespace (c : Char) : Bool :=
  if c = '\u0009' || c = '\u000b' || c = '\u000c' || c = '\uFEFF' then true
  else rust_char_is_whitespace c

/-- Modelled from the spec: `is_whitespace(cp)` as the specification states it —
true exactly for TAB, VT, FF, ZWNBSP, and the code points of Unicode general
category `Zs` (space separators). Used to compare the specified classifier
against the implemented one. -/
def spec_is_whitespace (c : Char) : Bool :=
  let n := c.toNat
  n = 0x09 || n = 0x0b || n = 0x0c || n = 0xfeff ||
  n = 0x20 || n = 0xa0 || n = 0x1680 ||
  (0x2000 ≤ n && n ≤ 0x200a) ||
  n = 0x202f || n = 0x205f || n = 0x3000

/-- Port of `code_points::is_id_start` (table-driven range membership). -/
def is_id_start (c : Char) : Bool :=
  let n := c.toNat
  (0x41 ≤ n && n ≤ 0x5a) || (0x61 ≤ n && n ≤ 0x7a) ||
  n = 0xaa || n = 0xb5 || n = 0xba ||
  (0xc0 ≤ n && n ≤ 0xd6) || (0xd8 ≤ n && n ≤ 0xf6) ||
  (0xf8 ≤ n && n ≤ 0x2ff) || (0x370 ≤ n && n ≤ 0x37d) ||
  (0x37f ≤ n && n ≤ 0x1fff) || (0x200c ≤ n && n ≤ 0x200d) ||
  (0x2070 ≤ n && n ≤ 0x218f) || (0x2c00 ≤ n && n ≤ 0x2fef) ||
  (0x3001 ≤ n && n ≤ 0xd7ff) || (0xf900 ≤ n && n ≤ 0xfdff) ||
  (0xfe70 ≤ n && n ≤ 0xfefe) || (0xff10 ≤ n && n ≤ 0xff19) ||
  (0xff21 ≤ n && n ≤ 0xff3a) || (0xff41 ≤ n && n ≤ 0xff5a) ||
  (0xff65 ≤ n && n ≤ 0xffdc)

/-- Port of `code_points::is_id_continue` (table-driven range membership). -/
def is_id_continue (c : Char) : Bool :=
  let n := c.toNat
  (0x30 ≤ n && n ≤ 0x39) || (0x41 ≤ n && n ≤ 0x5a) || n = 0x5f ||
  (0x61 ≤ n && n ≤ 0x7a) ||
  n = 0xaa || n = 0xb5 || n = 0xba ||
  (0xc0 ≤ n && n ≤ 0xd6) || (0xd8 ≤ n && n ≤ 0xf6) ||
  (0xf8 ≤ n && n ≤ 0x2ff) || (0x300 ≤ n && n ≤ 0x36f) ||
  (0x370 ≤ n && n ≤ 0x37d) ||
  (0x37f ≤ n && n ≤ 0x1fff) || (0x200c ≤ n && n ≤ 0x200d) ||
  (0x203f ≤ n && n ≤ 0x2040) ||
  (0x2070 ≤ n && n ≤ 0x218f) || (0x2c00 ≤ n && n ≤ 0x2fef) ||
  (0x3001 ≤ n && n ≤ 0xd7ff) || (0xf900 ≤ n && n ≤ 0xfdff) ||
  (0xfe70 ≤ n && n ≤ 0xfefe) || (0xff10 ≤ n && n ≤ 0xff19) ||
  (0xff21 ≤ n && n ≤ 0xff3a) || (0xff41 ≤ n && n ≤ 0xff5a) ||
  (0xff65 ≤ n && n ≤ 0xffdc)

/-- Models Rust's `char::to_digit(radix)`: `0`-`9`, then letters case-insensitively,
accepted only when the digit value is below the radix. -/
def to_digit (c : Char) (radix : Nat) : Option Nat :=
  let n := c.toNat
  let d? : Option Nat :=
    if 0x30 ≤ n && n ≤ 0x39 then some (n - 0x30)
    else if 0x61 ≤ n && n ≤ 0x7a then some (n - 0x61 + 10)
    else if 0x41 ≤ n && n ≤ 0x5a then some (n - 0x41 + 10)
    else none
  match d? with
  | some d => if d < radix then some d else none
  | none => none

/-- Models Rust's `char::is_digit(radix)`. -/
def is_digit (c : Char) (radix : Nat) : Bool :=
  (to_digit c radix).isSome

/-- Models Rust's `char::from_u32`: rejects surrogates and values above
`0x10ffff`. -/
def from_u32 (n : Nat) : Option Char :=
  if n < 0xd800 || (0xdfff < n && n ≤ 0x10ffff) then some (Char.ofNat n)
  else none

/-! ## token.rs

The enum in `token.rs` declares `EOF`, `Comment`, `HashbangComment`,
`IdentifierName` and `PrivateIdentifier`; the remaining variants below are the
ones `lexer.rs` constructs and the spec's data model describes (modelled from
the spec's token model, with payloads as the constructing code passes them). -/

/-- The 38 reserved words that `Lexer::parse_identifier_name` resolves to
dedicated keyword variants of the Rust `Token` enum. They are grouped into a
sub-enum (one constructor per reserved word, names preserved) so that equality
derivation on `Token` stays tractable; `Token.Kw k` stands for the flat
keyword variant of the source enum. -/
inductive Kw where
  | Await | Break | Case | Catch | Class | Const | Continue
  | Debugger | Default | Delete | Do | Else | Enum | Export | Extends
  | False | Finally | For | Function | If | Import | In | InstanceOf
  | New | Null | Return | Super | Switch | This | Throw | True | Try
  | TypeOf | Var | Void | While | With | Yield
  deriving DecidableEq, Repr

/-- The payload-free fixed multi-character operator variants of the Rust
`Token` enum, grouped into a sub-enum (names preserved); `Token.Fixed f`
stands for the flat variant of the source enum. -/
inductive Fixed where
  | DivAssign | Spread
  | SHL | SHLAssign | LE | GE | SHR | SHRAssign | USHR | USHRAssign
  | Equal | StrictEqual | ArrowFunction | NotEqual | StrictNotEqual
  | Exp | ExpAssign | MulAssign | Incr | AddAssign | Decr | SubAssign
  | And | AndAssign | BitAndAssign | Or | OrAssign | BitOrAssign
  | XORAssign | CoalNull | CoalNullAssign | Chain | ModAssign
  deriving DecidableEq, Repr

inductive Token where
  | EOF
  | Comment (s : String)
  | HashbangComment (s : String)
  | IdentifierName (s : String)
  | PrivateIdentifier (s : String)
  | Kw (k : Kw)
  | Number (s : String)
  | Str (s : String)
  | Regular (s : String)
  | TemplateHead (s : String)
  | TemplateMiddle (s : String)
  | TemplateTail (s : String)
  | Operator (c : Char)
  | Fixed (f : Fixed)
  deriving DecidableEq, Repr

/-! ## lexer_error.rs -/

/-- Port of `LexerError`: a source position (line number, offset in line). -/
structure LexerError where
  line : Nat
  off : Nat
  deriving DecidableEq, Repr

/-- Outcome of an embedded lexer routine: `ok`, a lexical error, or `hang`
(the Rust loop makes no progress and spins forever / fuel exhausted). -/
inductive LexRes (α : Type) where
  | ok (a : α)
  | err (e : LexerError)
  | hang
  deriving DecidableEq, Repr

def LexRes.map (f : α → β) : LexRes α → LexRes β
  | .ok a => .ok (f a)
  | .err e => .err e
  | .hang => .hang

/-- Whether a result is `ok`. -/
def LexRes.isOk {α : Type} : LexRes α → Bool
  | .ok _ => true
  | _ => false

/-! ## lexer.rs state -/

/-- The `Lexer` struct: the `InlineSourceReader` is inlined as the remaining
`input` (the reader's `current` is the head, `lookahead` the second element),
`buf` is `tokenbuf`, `tok` the retained current token, `tmpl` the
`template_expression` stack. -/
structure Lexer where
  input : List Char
  buf : List Char
  line : Nat
  off : Nat
  tok : Token
  tmpl : List Nat
  deriving DecidableEq, Repr

/-- `Lexer::new`: line 1, `line_off` 1 then bumped by the initial `next(1)`
that primes the reader. -/
def Lexer.new (src : String) : Lexer :=
  { input := src.toList, buf := [], line := 1, off := 2, tok := .EOF, tmpl := [] }

def current (l : Lexer) : Option Char := l.input.head?

def lookahead (l : Lexer) : Option Char := (l.input.drop 1).head?

/-- `Lexer::next`: advance the reader and the in-line offset. -/
def next (n : Nat) (l : Lexer) : Lexer :=
  { l with input := l.input.drop n, off := l.off + n }

/-- `Lexer::save`: push a character onto the token buffer. -/
def save (c : Char) (l : Lexer) : Lexer :=
  { l with buf := l.buf ++ [c] }

/-- `Lexer::savenext`. -/
def savenext (c : Char) (l : Lexer) : Lexer :=
  next 1 (save c l)

/-- `Lexer::savecurrent`: `n` times, save the current character (when present)
and advance. -/
def savecurrent : Nat → Lexer → Lexer
  | 0, l => l
  | n + 1, l =>
    savecurrent n (next 1 (match current l with | some c => save c l | none => l))

/-- `Lexer::operatornext`. -/
def operatornext (c : Char) (l : Lexer) : Token × Lexer :=
  (.Operator c, next 1 l)

/-- `Lexer::template_enter_expression`. -/
def template_enter_expression (l : Lexer) : Lexer :=
  { l with tmpl := 0 :: l.tmpl }

/-- `Lexer::template_in_expression`. -/
def template_in_expression (l : Lexer) : Bool :=
  !l.tmpl.isEmpty

/-- `Lexer::template_could_leave_expression`. -/
def template_could_leave_expression (l : Lexer) : Bool :=
  match l.tmpl.head? with
  | some blocks => blocks = 0
  | none => false

/-- `Lexer::template_leave_expression`. -/
def template_leave_expression (l : Lexer) : LexRes Lexer :=
  match l.tmpl with
  | blocks :: rest =>
    if blocks ≠ 0 then .err ⟨l.line, l.off⟩
    else .ok { l with tmpl := rest }
  | [] => .err ⟨l.line, l.off⟩

/-- `Lexer::template_expression_enter_block`. -/
def template_expression_enter_block (l : Lexer) : LexRes Lexer :=
  match l.tmpl with
  | blocks :: rest => .ok { l with tmpl := (blocks + 1) :: rest }
  | [] => .err ⟨l.line, l.off⟩

/-- `Lexer::template_expression_leave_block`. -/
def template_expression_leave_block (l : Lexer) : LexRes Lexer :=
  match l.tmpl with
  | blocks :: rest =>
    if blocks = 0 then .err ⟨l.line, l.off⟩
    else .ok { l with tmpl := (blocks - 1) :: rest }
  | [] => .err ⟨l.line, l.off⟩

/-- `Lexer::newline`: skip one line-terminator sequence (CR-LF collapses),
bump the line counter, reset the column. Does nothing when the current
character is absent or not a line terminator. -/
def newline (l : Lexer) : Lexer :=
  match current l with
  | none => l
  | some c =>
    if ¬ is_line_terminator c then l
    else
      let l := { l with line := l.line + 1, off := 1 }
      if c ≠ '\u000d' then next 1 l
      else if lookahead l = some '\u000a' then next 2 l
      else next 1 l

/-! ## lexer.rs sub-scanners -/

/-- Loop of `Lexer::parse_singleline_comment`: consume source characters up to
(but not including, in the input; the terminator itself is skipped via
`newline`) the next line terminator or end of input. -/
def singleline_loop : Nat → Lexer → LexRes Lexer
  | 0, _ => .hang
  | fuel + 1, l =>
    match current l with
    | none => .ok l
    | some c =>
      if is_line_terminator c then .ok (newline l)
      else singleline_loop fuel (savenext c l)

/-- `Lexer::parse_singleline_comment`: skip the two lead-in characters
(`//` or `#!`), then run the loop. Fuel `input.length + 1` always suffices:
every iteration consumes at least one character. -/
def parse_singleline_comment (l : Lexer) : LexRes Lexer :=
  let l := next 2 l
  singleline_loop (l.input.length + 1) l

/-- Loop of `Lexer::parse_multiline_comment`: consume to `*/`, collapsing each
line terminator into `\n` in the buffer; end of input is an error. -/
def multiline_loop : Nat → Lexer → LexRes Lexer
  | 0, _ => .hang
  | fuel + 1, l =>
    match current l with
    | none => .err ⟨l.line, l.off⟩
    | some c =>
      if c = '*' && lookahead l = some '/' then .ok (next 2 l)
      else if is_line_terminator c then multiline_loop fuel (newline (save '\n' l))
      else multiline_loop fuel (savenext c l)

/-- `Lexer::parse_multiline_comment`. -/
def parse_multiline_comment (l : Lexer) : LexRes Lexer :=
  let l := next 2 l
  multiline_loop (l.input.length + 1) l

/-- `Lexer::parse_comment`: dispatch on the lookahead (`//` vs `/*`). -/
def parse_comment (l : Lexer) : LexRes (Token × Lexer) :=
  match lookahead l with
  | some '/' => (parse_singleline_comment l).map (fun l' => (.Comment ⟨l'.buf⟩, l'))
  | some '*' => (parse_multiline_comment l).map (fun l' => (.Comment ⟨l'.buf⟩, l'))
  | _ => .err ⟨l.line, l.off⟩

/-- `Lexer::parse_hashbang_comment`. -/
def parse_hashbang_comment (l : Lexer) : LexRes (Token × Lexer) :=
  (parse_singleline_comment l).map (fun l' => (.HashbangComment ⟨l'.buf⟩, l'))

/-- Brace-form loop of `Lexer::parse_unicode_escape_sequence` (`u{...}`):
accumulate hex digits with single `_` separators allowed between digits; the
closing `}` is not consumed (the source `break`s without advancing). -/
def uesc_brace_loop : Nat → Lexer → Nat → Bool → Bool → LexRes (Lexer × Nat)
  | 0, _, _, _, _ => .hang
  | fuel + 1, l, val, has_digit, last_digit =>
    match current l with
    | some c =>
      if c = '}' && has_digit then .ok (l, val)
      else if is_digit c 16 then
        match to_digit c 16 with
        | some digit =>
          let val := val * 16 + digit
          if val > 0x10ffff then .err ⟨l.line, l.off⟩
          else uesc_brace_loop fuel (next 1 l) val true true
        | none => .err ⟨l.line, l.off⟩
      else if c = '_' && last_digit then uesc_brace_loop fuel (next 1 l) val has_digit false
      else .err ⟨l.line, l.off⟩
    | none => .err ⟨l.line, l.off⟩

/-- Fixed four-hex-digit form of `Lexer::parse_unicode_escape_sequence`. -/
def uesc_fix4 : Nat → Lexer → Nat → LexRes (Lexer × Nat)
  | 0, l, val => .ok (l, val)
  | k + 1, l, val =>
    match current l with
    | some c =>
      if is_digit c 16 then
        match to_digit c 16 with
        | some digit => uesc_fix4 k (next 1 l) (val * 16 + digit)
        | none => .err ⟨l.line, l.off⟩
      else .err ⟨l.line, l.off⟩
    | none => .err ⟨l.line, l.off⟩

/-- `Lexer::parse_unicode_escape_sequence`: `u` then either four hex digits or
`{`-delimited hex digits; the resulting value must be a valid scalar, which is
then pushed onto the token buffer. -/
def parse_unicode_escape_sequence (l : Lexer) : LexRes Lexer :=
  if current l ≠ some 'u' then .err ⟨l.line, l.off⟩
  else
    let l := next 1 l
    let res :=
      if current l = some '{' then
        let l := next 1 l
        uesc_brace_loop (l.input.length + 1) l 0 false false
      else uesc_fix4 4 l 0
    match res with
    | .ok (l, val) =>
      match from_u32 val with
      | some c => .ok (save c l)
      | none => .err ⟨l.line, l.off⟩
    | .err e => .err e
    | .hang => .hang

/-- Loop of `Lexer::parse_identifier_name_part`: identifier start/continue
characters, `$`, `_`, ZWNJ/ZWJ, or backslash-introduced Unicode escapes. -/
def id_part_loop : Nat → Lexer → LexRes Lexer
  | 0, _ => .hang
  | fuel + 1, l =>
    match current l with
    | some c =>
      if is_id_start c || is_id_continue c || c.toNat = 0x200c || c.toNat = 0x200d
          || c = '$' || c = '_' then
        id_part_loop fuel (savenext c l)
      else if c = '\\' then
        match parse_unicode_escape_sequence (next 1 l) with
        | .ok l' => id_part_loop fuel l'
        | .err e => .err e
        | .hang => .hang
      else .ok l
    | none => .ok l

/-- `Lexer::parse_identifier_name_part`. -/
def parse_identifier_name_part (l : Lexer) : LexRes Lexer :=
  id_part_loop (l.input.length + 1) l

/-- The keyword resolution table at the end of `Lexer::parse_identifier_name`:
the accumulated text is matched case-sensitively against the reserved words;
anything else is a generic identifier. -/
def keyword_token (s : String) : Token :=
  match s with
  | "await" => .Kw .Await
  | "break" => .Kw .Break
  | "case" => .Kw .Case
  | "catch" => .Kw .Catch
  | "class" => .Kw .Class
  | "const" => .Kw .Const
  | "continue" => .Kw .Continue
  | "debugger" => .Kw .Debugger
  | "default" => .Kw .Default
  | "delete" => .Kw .Delete
  | "do" => .Kw .Do
  | "else" => .Kw .Else
  | "enum" => .Kw .Enum
  | "export" => .Kw .Export
  | "extends" => .Kw .Extends
  | "false" => .Kw .False
  | "finally" => .Kw .Finally
  | "for" => .Kw .For
  | "function" => .Kw .Function
  | "if" => .Kw .If
  | "import" => .Kw .Import
  | "in" => .Kw .In
  | "instanceof" => .Kw .InstanceOf
  | "new" => .Kw .New
  | "null" => .Kw .Null
  | "return" => .Kw .Return
  | "super" => .Kw .Super
  | "switch" => .Kw .Switch
  | "this" => .Kw .This
  | "throw" => .Kw .Throw
  | "true" => .Kw .True
  | "try" => .Kw .Try
  | "typeof" => .Kw .TypeOf
  | "var" => .Kw .Var
  | "void" => .Kw .Void
  | "while" => .Kw .While
  | "with" => .Kw .With
  | "yield" => .Kw .Yield
  | _ => .IdentifierName s

/-- `Lexer::parse_identifier_name`. -/
def parse_identifier_name (l : Lexer) : LexRes (Token × Lexer) :=
  (parse_identifier_name_part l).map (fun l' => (keyword_token ⟨l'.buf⟩, l'))

/-- `Lexer::parse_private_identifier`: saves the `#`, scans identifier
characters, and returns the result. Note the source constructs
`Token::IdentifierName`, not the declared `Token::PrivateIdentifier`. -/
def parse_private_identifier (l : Lexer) : LexRes (Token × Lexer) :=
  let l := savenext '#' l
  (parse_identifier_name_part l).map (fun l' => (.IdentifierName ⟨l'.buf⟩, l'))

/-- The `NumberType` enum local to `Lexer::parse_number`. -/
inductive NumberType where
  | MustDecimal | MustOctal | MustBinary | MustHex | MaybeOctal
  deriving DecidableEq, Repr

/-- The mutable flags of `Lexer::parse_number`'s state machine. -/
structure NumFlags where
  has_digit : Bool
  only_dec : Bool
  may_allow_exp : Bool
  allow_exp : Bool
  allow_dot : Bool
  number_type : NumberType
  deriving DecidableEq, Repr

/-- Outcome of one arm of `Lexer::parse_number`'s loop: continue with updated
state and flags, or stop (the `break` after the BigInt suffix, or falling out
of the loop). -/
inductive NumStep where
  | go (l : Lexer) (f : NumFlags)
  | done (l : Lexer)
  deriving Repr

/-- Arms 1-4 of `Lexer::parse_number`'s loop (in source order): the BigInt
suffix `n` (consume and break), the two exponent-marker arms, and the decimal
point; `none` when no arm matches. -/
def num_arms_mark (c : Char) (l : Lexer) (f : NumFlags) : Option NumStep :=
  if c = 'n' && f.only_dec then some (.done (savecurrent 1 l))
  else if (c = 'e' || c = 'E') && f.allow_exp
      && (lookahead l = some '+' || lookahead l = some '-') then
    some (.go (savecurrent 2 l)
      { f with allow_exp := false, only_dec := false, has_digit := false,
               allow_dot := false, may_allow_exp := false,
               number_type := .MustDecimal })
  else if (c = 'e' || c = 'E') && f.allow_exp then
    some (.go (savecurrent 1 l)
      { f with allow_exp := false, only_dec := false, has_digit := false,
               allow_dot := false, may_allow_exp := false,
               number_type := .MustDecimal })
  else if c = '.' && f.allow_dot then
    some (.go (savecurrent 1 l)
      { f with allow_dot := false, only_dec := false, number_type := .MustDecimal })
  else none

/-- Arms 5-8 of `Lexer::parse_number`'s loop (in source order): the numeric
separator `_`, permitted only after a digit and before a digit of the current
radix; `none` when no arm matches. -/
def num_arms_sep (c : Char) (l : Lexer) (f : NumFlags) : Option NumStep :=
  if c = '_' && f.has_digit && f.number_type = NumberType.MustHex
      && (match lookahead l with | some c2 => is_digit c2 16 | none => false) then
    some (.go (savecurrent 2 l) f)
  else if c = '_' && f.has_digit
      && (f.number_type = NumberType.MustDecimal || f.number_type = NumberType.MaybeOctal)
      && (match lookahead l with | some c2 => is_digit c2 10 | none => false) then
    some (.go (savecurrent 2 l)
      (if f.may_allow_exp then { f with may_allow_exp := false, allow_exp := true } else f))
  else if c = '_' && f.has_digit && f.number_type = NumberType.MustOctal
      && (match lookahead l with | some c2 => is_digit c2 8 | none => false) then
    some (.go (savecurrent 2 l) f)
  else if c = '_' && f.has_digit && f.number_type = NumberType.MustBinary
      && (match lookahead l with | some c2 => is_digit c2 2 | none => false) then
    some (.go (savecurrent 2 l) f)
  else none

/-- Arms 9-14 of `Lexer::parse_number`'s loop (in source order): digits of the
current numeric form, including the two `MaybeOctal` arms where an `8` or `9`
flips a leading-zero literal to decimal; `none` when no arm matches. -/
def num_arms_digit (c : Char) (l : Lexer) (f : NumFlags) : Option NumStep :=
  if 0x30 ≤ c.toNat && c.toNat ≤ 0x37 && f.number_type = NumberType.MaybeOctal then
    some (.go (savecurrent 1 l)
      (let f := { f with has_digit := true }
       if f.may_allow_exp then { f with may_allow_exp := false, allow_exp := true } else f))
  else if 0x38 ≤ c.toNat && c.toNat ≤ 0x39 && f.number_type = NumberType.MaybeOctal then
    some (.go (savecurrent 1 l)
      (let f := { f with number_type := .MustDecimal, has_digit := true }
       if f.may_allow_exp then { f with may_allow_exp := false, allow_exp := true } else f))
  else if f.number_type = NumberType.MustHex && is_digit c 16 then
    some (.go (savenext c l) { f with has_digit := true })
  else if f.number_type = NumberType.MustDecimal && is_digit c 10 then
    some (.go (savenext c l)
      (let f := { f with has_digit := true }
       if f.may_allow_exp then { f with may_allow_exp := false, allow_exp := true } else f))
  else if f.number_type = NumberType.MustOctal && is_digit c 8 then
    some (.go (savenext c l) { f with has_digit := true })
  else if f.number_type = NumberType.MustBinary && is_digit c 2 then
    some (.go (savenext c l) { f with has_digit := true })
  else none

/-- Main loop of `Lexer::parse_number`: the arm groups are tried in the
source's order (first match wins); no arm produces an error — a character
that fits no arm simply `break`s the loop. -/
def num_loop : Nat → Lexer → NumFlags → LexRes Lexer
  | 0, _, _ => .hang
  | fuel + 1, l, f =>
    match current l with
    | none => .ok l
    | some c =>
      match num_arms_mark c l f with
      | some (.done l2) => .ok l2
      | some (.go l2 f2) => num_loop fuel l2 f2
      | none =>
      match num_arms_sep c l f with
      | some (.done l2) => .ok l2
      | some (.go l2 f2) => num_loop fuel l2 f2
      | none =>
      match num_arms_digit c l f with
      | some (.done l2) => .ok l2
      | some (.go l2 f2) => num_loop fuel l2 f2
      | none => .ok l

/-- `Lexer::parse_number`: the initial dispatch on the first one or two
characters, fixing the numeric form and flags. -/
def parse_number_init (l : Lexer) : Lexer × NumFlags :=
    if current l = some '0' && (lookahead l = some 'b' || lookahead l = some 'B') then
      (savecurrent 2 l, ⟨false, false, false, false, false, .MustBinary⟩)
    else if current l = some '0' && (lookahead l = some 'o' || lookahead l = some 'O') then
      (savecurrent 2 l, ⟨false, false, false, false, false, .MustOctal⟩)
    else if current l = some '0' && (lookahead l = some 'x' || lookahead l = some 'X') then
      (savecurrent 2 l, ⟨false, false, false, false, false, .MustHex⟩)
    else if current l = some '0' then
      (savecurrent 1 l, ⟨false, true, false, true, true, .MaybeOctal⟩)
    else if current l = some '.' then
      (savecurrent 1 l, ⟨false, false, true, false, false, .MustDecimal⟩)
    else
      (savecurrent 1 l, ⟨true, true, false, true, true, .MustDecimal⟩)

/-- `Lexer::parse_number` (continued): run the state-machine loop from the
initial dispatch; the raw matched text becomes the `Number` payload. -/
def parse_number (l : Lexer) : LexRes (Token × Lexer) :=
  let step := parse_number_init l
  (num_loop (step.1.input.length + 1) step.1 step.2).map (fun l' => (.Number ⟨l'.buf⟩, l'))

/-- A fixed-count digit loop in a given radix (`\x` and the two-digit legacy
octal escapes of `parse_string_content` use this shape: read a digit or error,
then advance). -/
def fixn_digits (radix : Nat) : Nat → Lexer → Nat → LexRes (Lexer × Nat)
  | 0, l, val => .ok (l, val)
  | k + 1, l, val =>
    match current l with
    | some c =>
      match to_digit c radix with
      | some d => fixn_digits radix k (next 1 l) (val * radix + d)
      | none => .err ⟨l.line, l.off⟩
    | none => .err ⟨l.line, l.off⟩

/-- `Lexer::parse_string_content`: one string-character step, shared by the
string and template scanners. LS/PS are stored verbatim; a backslash
introduces a line continuation (which, exactly as in the source, saves `\n`
and calls `newline` while the cursor still rests on the backslash — so it
consumes no input), a named escape, a legacy octal escape, `\x`, or `\u`;
any other character (raw line terminators included) is saved verbatim. -/
def parse_string_content (l : Lexer) : LexRes Lexer :=
  match current l with
  | none => .err ⟨l.line, l.off⟩
  | some c =>
    if c = '\u2028' || c = '\u2029' then .ok (savecurrent 1 l)
    else if c = '\\' && (match lookahead l with
        | some c2 => is_line_terminator c2 | none => false) then
      .ok (newline (save '\n' l))
    else if c = '\\' then
      let l := next 1 l
      match current l with
      | none => .err ⟨l.line, l.off⟩
      | some c =>
        if c = '\'' then .ok (savecurrent 1 l)
        else if c = '\"' then .ok (savecurrent 1 l)
        else if c = '\\' then .ok (savecurrent 1 l)
        else if c = 'b' then .ok (savenext '\x08' l)
        else if c = 'f' then .ok (savenext '\x0c' l)
        else if c = 'n' then .ok (savenext '\n' l)
        else if c = 'r' then .ok (savenext '\x0d' l)
        else if c = 't' then .ok (savenext '\t' l)
        else if c = 'v' then .ok (savenext '\x0b' l)
        else if c = '0' && !(match lookahead l with
            | some c2 => is_digit c2 10 | none => false) then
          .ok (savenext '\x00' l)
        else if c = '0' && (lookahead l = some '8' || lookahead l = some '9') then
          .ok (savenext '\x00' l)
        else if 0x30 ≤ c.toNat && c.toNat ≤ 0x33 && (match lookahead l with
            | some c2 => is_digit c2 8 | none => false) then
          let val := (to_digit c 8).getD 0
          let l := next 1 l
          let val := match (current l).bind (to_digit · 8) with
            | some d => val * 8 + d
            | none => val
          let l := next 1 l
          let step : Nat × Lexer :=
            if (match current l with | some c3 => is_digit c3 8 | none => false) then
              ((match (current l).bind (to_digit · 8) with
                | some d => val * 8 + d
                | none => val), next 1 l)
            else (val, l)
          match from_u32 step.1 with
          | some ch => .ok (save ch step.2)
          | none => .err ⟨step.2.line, step.2.off⟩
        else if 0x34 ≤ c.toNat && c.toNat ≤ 0x37 && (match lookahead l with
            | some c2 => is_digit c2 8 | none => false) then
          match fixn_digits 8 2 l 0 with
          | .ok (l, val) =>
            match from_u32 val with
            | some ch => .ok (save ch l)
            | none => .err ⟨l.line, l.off⟩
          | .err e => .err e
          | .hang => .hang
        else if 0x31 ≤ c.toNat && c.toNat ≤ 0x37 && !(match lookahead l with
            | some c2 => is_digit c2 8 | none => false) then
          match (to_digit c 8).bind from_u32 with
          | some ch => .ok (savenext ch l)
          | none => .err ⟨l.line, l.off⟩
        else if c = 'x' then
          let l := next 1 l
          match fixn_digits 16 2 l 0 with
          | .ok (l, val) =>
            match from_u32 val with
            | some ch => .ok (save ch l)
            | none => .err ⟨l.line, l.off⟩
          | .err e => .err e
          | .hang => .hang
        else if c = 'u' then parse_unicode_escape_sequence l
        else .err ⟨l.line, l.off⟩
    else .ok (savenext c l)

/-- Loop of `Lexer::parse_string`: step `parse_string_content` until the
current character equals the remembered opening quote (an `Option` equality,
as in the source). A content step that consumes no input (the backslash-line-
terminator continuation) makes the source spin forever; the fuel bound
surfaces that as `hang`. -/
def string_loop (quota : Option Char) : Nat → Lexer → LexRes Lexer
  | 0, _ => .hang
  | fuel + 1, l =>
    if current l = quota then .ok (next 1 l)
    else
      match parse_string_content l with
      | .ok l' => string_loop quota fuel l'
      | .err e => .err e
      | .hang => .hang

/-- `Lexer::parse_string`: remember the opening quote, consume it, loop. -/
def parse_string (l : Lexer) : LexRes (Token × Lexer) :=
  let quota := current l
  let l := next 1 l
  (string_loop quota (l.input.length + 1) l).map (fun l' => (.Str ⟨l'.buf⟩, l'))

/-- Loop of `Lexer::parse_template`: like the string loop, but a backtick
closes the literal (a `Str` token when this segment began the literal, else a
`TemplateTail`) and `${` opens a substitution (a `TemplateHead` when this
segment began the literal, else a `TemplateMiddle`), pushing the nesting
stack. -/
def template_loop (is_head : Bool) : Nat → Lexer → LexRes (Token × Lexer)
  | 0, _ => .hang
  | fuel + 1, l =>
    if current l = some '`' then
      let l' := next 1 l
      .ok (if is_head then (Token.Str ⟨l'.buf⟩, l') else (Token.TemplateTail ⟨l'.buf⟩, l'))
    else if current l = some '$' && lookahead l = some '{' then
      let l' := template_enter_expression (next 2 l)
      .ok (if is_head then (Token.TemplateHead ⟨l'.buf⟩, l')
           else (Token.TemplateMiddle ⟨l'.buf⟩, l'))
    else
      match parse_string_content l with
      | .ok l' => template_loop is_head fuel l'
      | .err e => .err e
      | .hang => .hang

/-- `Lexer::parse_template`: head if entered at a backtick (fresh literal),
otherwise re-entered at a `}` closing a substitution. -/
def parse_template (l : Lexer) : LexRes (Token × Lexer) :=
  let is_head := current l = some '`'
  let l := next 1 l
  template_loop is_head (l.input.length + 1) l

/-- Loop of `Lexer::parse_regular`: consume until a `/` — the `/` check comes
before everything else, so a `/` ends the body even inside an open `[...]`
class; `[` and `]` track the class depth, a `]` at depth `0` is an error, and
a backslash before a line terminator or end of input, a raw line terminator,
or end of input are errors. Returns the state after the closing `/` together
with the final class depth. -/
def regular_loop : Nat → Lexer → Int → LexRes (Lexer × Int)
  | 0, _, _ => .hang
  | fuel + 1, l, depth =>
    if current l = some '/' then .ok (next 1 l, depth)
    else
      match current l with
      | some '\\' =>
        match lookahead l with
        | some c2 =>
          if ¬ is_line_terminator c2 then regular_loop fuel (savecurrent 2 l) depth
          else .err ⟨l.line, l.off⟩
        | none => .err ⟨l.line, l.off⟩
      | some '[' => regular_loop fuel (savenext '[' l) (depth + 1)
      | some ']' =>
        if depth ≤ 0 then .err ⟨l.line, l.off⟩
        else regular_loop fuel (savenext ']' l) (depth - 1)
      | some c =>
        if is_line_terminator c then .err ⟨l.line, l.off⟩
        else regular_loop fuel (savenext c l) depth
      | none => .err ⟨l.line, l.off⟩

/-- `Lexer::parse_regular`: skip the opening `/`, run the body loop, and
reject a nonzero class depth at the closing `/`. -/
def parse_regular (l : Lexer) : LexRes (Token × Lexer) :=
  let l := next 1 l
  match regular_loop (l.input.length + 1) l 0 with
  | .ok (l', depth) =>
    if depth ≠ 0 then .err ⟨l'.line, l'.off⟩
    else .ok (.Regular ⟨l'.buf⟩, l')
  | .err e => .err e
  | .hang => .hang

/-! ## lexer.rs dispatch loop -/

/-- The one-token-lookback test inlined in `Lexer::scan`'s regex arm: the
retained token kinds after which a `/` is *not* scanned as a regular
expression (`Number`, `IdentifierName`, `Str`, `Operator(')')`,
`Operator(']')`). -/
def prev_blocks_regex : Token → Bool
  | .Number _ => true
  | .IdentifierName _ => true
  | .Str _ => true
  | .Operator c => c = ')' || c = ']'
  | _ => false

/-- Arms 1-7 of `Lexer::scan`'s dispatch (in source order): hashbang comment,
private identifier, comment, regular expression, divide-assign, `.`-led
number, and `.`/`...`. Returns `none` when none of these arms matches, so the
later arms of the dispatch get their turn (first-match priority, exactly as
in the source's `match`). -/
def scan_hash_slash_dot (c : Char) (l : Lexer) : Option (LexRes (Token × Lexer)) :=
  if c = '#' && lookahead l = some '!' then some (parse_hashbang_comment l)
  else if c = '#' && (lookahead l = some '$' || lookahead l = some '_'
      || (match lookahead l with | some c2 => is_id_start c2 | none => false)) then
    some (parse_private_identifier l)
  else if c = '/' && (lookahead l = some '*' || lookahead l = some '/') then
    some (parse_comment l)
  else if c = '/' && !prev_blocks_regex l.tok then some (parse_regular l)
  else if c = '/' && lookahead l = some '=' then some (.ok (.Fixed .DivAssign, next 2 l))
  else if c = '.' && (match lookahead l with
      | some c2 => 0x30 ≤ c2.toNat && c2.toNat ≤ 0x39 | none => false) then
    some (parse_number l)
  else if c = '.' then
    let step := operatornext '.' l
    if current step.2 = some '.' && lookahead step.2 = some '.' then
      some (.ok (.Fixed .Spread, next 2 step.2))
    else some (.ok step)
  else none

/-- The comparison-operator arms (`<`, `>`, `=`, `!`) of `Lexer::scan`'s
dispatch, in source order; `none` when no arm matches. -/
def scan_operators_cmp (c : Char) (l : Lexer) : Option (LexRes (Token × Lexer)) :=
  if c = '<' && lookahead l = some '<' then
    let l := next 2 l
    if current l = some '=' then some (.ok (.Fixed .SHLAssign, next 1 l))
    else some (.ok (.Fixed .SHL, l))
  else if c = '<' && lookahead l = some '=' then some (.ok (.Fixed .LE, next 2 l))
  else if c = '>' && lookahead l = some '=' then some (.ok (.Fixed .GE, next 2 l))
  else if c = '>' && lookahead l = some '>' then
    let l := next 2 l
    if current l = some '>' && lookahead l = some '=' then
      some (.ok (.Fixed .USHRAssign, next 2 l))
    else if current l = some '>' then some (.ok (.Fixed .USHR, next 1 l))
    else if current l = some '=' then some (.ok (.Fixed .SHRAssign, next 1 l))
    else some (.ok (.Fixed .SHR, l))
  else if c = '=' && lookahead l = some '=' then
    let l := next 2 l
    if current l = some '=' then some (.ok (.Fixed .StrictEqual, next 1 l))
    else some (.ok (.Fixed .Equal, l))
  else if c = '=' && lookahead l = some '>' then some (.ok (.Fixed .ArrowFunction, next 2 l))
  else if c = '!' && lookahead l = some '=' then
    let l := next 2 l
    if current l = some '=' then some (.ok (.Fixed .StrictNotEqual, next 1 l))
    else some (.ok (.Fixed .NotEqual, l))
  else none

/-- The arithmetic-operator arms (`*`, `+`, `-`) of `Lexer::scan`'s dispatch,
in source order; `none` when no arm matches. -/
def scan_operators_arith (c : Char) (l : Lexer) : Option (LexRes (Token × Lexer)) :=
  if c = '*' && lookahead l = some '*' then
    let l := next 2 l
    if current l = some '=' then some (.ok (.Fixed .ExpAssign, next 1 l))
    else some (.ok (.Fixed .Exp, l))
  else if c = '*' && lookahead l = some '=' then some (.ok (.Fixed .MulAssign, next 2 l))
  else if c = '+' && lookahead l = some '+' then some (.ok (.Fixed .Incr, next 2 l))
  else if c = '+' && lookahead l = some '=' then some (.ok (.Fixed .AddAssign, next 2 l))
  else if c = '-' && lookahead l = some '-' then some (.ok (.Fixed .Decr, next 2 l))
  else if c = '-' && lookahead l = some '=' then some (.ok (.Fixed .SubAssign, next 2 l))
  else none

/-- The logical/bitwise/optional-chain operator arms (`&`, `|`, `^`, `?`,
`%`) of `Lexer::scan`'s dispatch, in source order; `none` when no arm
matches. -/
def scan_operators_logic (c : Char) (l : Lexer) : Option (LexRes (Token × Lexer)) :=
  if c = '&' && lookahead l = some '&' then
    let l := next 2 l
    if current l = some '=' then some (.ok (.Fixed .AndAssign, next 1 l))
    else some (.ok (.Fixed .And, l))
  else if c = '&' && lookahead l = some '=' then some (.ok (.Fixed .BitAndAssign, next 2 l))
  else if c = '|' && lookahead l = some '|' then
    let l := next 2 l
    if current l = some '=' then some (.ok (.Fixed .OrAssign, next 1 l))
    else some (.ok (.Fixed .Or, l))
  else if c = '|' && lookahead l = some '=' then some (.ok (.Fixed .BitOrAssign, next 2 l))
  else if c = '^' && lookahead l = some '=' then some (.ok (.Fixed .XORAssign, next 2 l))
  else if c = '?' && lookahead l = some '?' then
    let l := next 2 l
    if current l = some '=' then some (.ok (.Fixed .CoalNullAssign, next 1 l))
    else some (.ok (.Fixed .CoalNull, l))
  else if c = '?' && lookahead l = some '.' then
    let l := next 2 l
    if (match current l with | some c2 => is_digit c2 10 | none => false) then
      some (.err ⟨l.line, l.off⟩)
    else some (.ok (.Fixed .Chain, l))
  else if c = '%' && lookahead l = some '=' then some (.ok (.Fixed .ModAssign, next 2 l))
  else none

/-- All multi-character operator arms of `Lexer::scan`'s dispatch: the three
groups tried in the source's order (first match wins). -/
def scan_operators (c : Char) (l : Lexer) : Option (LexRes (Token × Lexer)) :=
  match scan_operators_cmp c l with
  | some r => some r
  | none =>
  match scan_operators_arith c l with
  | some r => some r
  | none => scan_operators_logic c l

/-- The string, template, and template-substitution brace arms of
`Lexer::scan`'s dispatch (in source order); `none` when no arm matches. -/
def scan_literals_braces (c : Char) (l : Lexer) : Option (LexRes (Token × Lexer)) :=
  if c = '\"' || c = '\'' then some (parse_string l)
  else if c = '`' then some (parse_template l)
  else if c = '{' && template_in_expression l then
    some (match template_expression_enter_block l with
      | .ok l => .ok (operatornext '{' l)
      | .err e => .err e
      | .hang => .hang)
  else if c = '}' && template_in_expression l then
    some (if template_could_leave_expression l then
      match template_leave_expression l with
      | .ok l => parse_template l
      | .err e => .err e
      | .hang => .hang
    else
      match template_expression_leave_block l with
      | .ok l => .ok (operatornext '}' l)
      | .err e => .err e
      | .hang => .hang)
  else none

/-- The dispatch loop of `Lexer::scan`: on a present character the arm groups
are tried in the source's order (hash/slash/dot arms, operator arms,
string/template/brace arms), then the two skip arms (line terminators, which
re-loop through `newline`, and whitespace), then identifiers, numbers, and
the single-character-operator catch-all. -/
def scan_loop : Nat → Lexer → LexRes (Token × Lexer)
  | 0, _ => .hang
  | fuel + 1, l =>
    match current l with
    | none => .ok (.EOF, l)
    | some c =>
      match scan_hash_slash_dot c l with
      | some r => r
      | none =>
      match scan_operators c l with
      | some r => r
      | none =>
      match scan_literals_braces c l with
      | some r => r
      | none =>
      if is_line_terminator c then scan_loop fuel (newline l)
      else if is_whitespace c then scan_loop fuel (next 1 l)
      else if c = '$' || c = '_' || is_id_start c then parse_identifier_name l
      else if 0x30 ≤ c.toNat && c.toNat ≤ 0x39 then parse_number l
      else .ok (operatornext c l)

/-- `Lexer::scan`: clear the token buffer, then run the dispatch loop (fuel:
each skip iteration consumes at least one character). -/
def scan (l : Lexer) : LexRes (Token × Lexer) :=
  scan_loop (l.input.length + 1) { l with buf := [] }

/-- `Lexer::next_token`: scan and retain the produced token as the lexer's
current token. -/
def next_token (l : Lexer) : LexRes Lexer :=
  match scan l with
  | .ok (t, l') => .ok { l' with tok := t }
  | .err e => .err e
  | .hang => .hang

/-- Projection of `scan` onto the produced token. -/
def scanTok (l : Lexer) : LexRes Token :=
  (scan l).map Prod.fst

/-- Run the lexer `n` steps from a state, collecting each step's outcome;
stops at the first error or hang. -/
def run : Nat → Lexer → List (LexRes Token)
  | 0, _ => []
  | n + 1, l =>
    match next_token l with
    | .ok l' => .ok l'.tok :: run n l'
    | .err e => [.err e]
    | .hang => [.hang]

/-- Tokenize a source string from a fresh lexer, collecting `n` step
outcomes. -/
def tokenizeN (src : String) (n : Nat) : List (LexRes Token) :=
  run n (Lexer.new src)

end Qjs

/-! ## Helper lemmas -/

namespace Qjs

theorem LexRes.map_eq_ok {α β : Type} {f : α → β} {r : LexRes α} {b : β} :
    r.map f = .ok b ↔ ∃ a, r = .ok a ∧ b = f a := by
  cases r <;> simp [LexRes.map, eq_comm]

theorem next_buf (n : Nat) (l : Lexer) : (next n l).buf = l.buf := rfl

theorem newline_buf (l : Lexer) : (newline l).buf = l.buf := by
  simp only [newline]
  repeat' split
  all_goals rfl

theorem current_none_iff (l : Lexer) : current l = none ↔ l.input = [] := by
  unfold current
  exact List.head?_eq_none_iff

theorem keyword_token_ne_eof (s : String) : keyword_token s ≠ .EOF := by
  unfold keyword_token
  split <;> simp

theorem parse_comment_ne_eof {l t m} (h : parse_comment l = .ok (t, m)) : t ≠ .EOF := by
  intro hteq
  subst hteq
  unfold parse_comment at h
  split at h
  · rw [LexRes.map_eq_ok] at h
    obtain ⟨a, -, ha⟩ := h
    simp at ha
  · rw [LexRes.map_eq_ok] at h
    obtain ⟨a, -, ha⟩ := h
    simp at ha
  · simp at h

theorem parse_hashbang_ne_eof {l t m} (h : parse_hashbang_comment l = .ok (t, m)) :
    t ≠ .EOF := by
  intro hteq
  subst hteq
  unfold parse_hashbang_comment at h
  rw [LexRes.map_eq_ok] at h
  obtain ⟨a, -, ha⟩ := h
  simp at ha

theorem parse_private_identifier_ne_eof {l t m}
    (h : parse_private_identifier l = .ok (t, m)) : t ≠ .EOF := by
  intro hteq
  subst hteq
  simp only [parse_private_identifier] at h
  rw [LexRes.map_eq_ok] at h
  obtain ⟨a, -, ha⟩ := h
  simp at ha

theorem parse_identifier_name_ne_eof {l t m}
    (h : parse_identifier_name l = .ok (t, m)) : t ≠ .EOF := by
  intro hteq
  subst hteq
  unfold parse_identifier_name at h
  rw [LexRes.map_eq_ok] at h
  obtain ⟨a, -, ha⟩ := h
  rw [Prod.mk.injEq] at ha
  exact keyword_token_ne_eof _ ha.1.symm

theorem parse_number_ne_eof {l t m} (h : parse_number l = .ok (t, m)) : t ≠ .EOF := by
  intro hteq
  subst hteq
  simp only [parse_number] at h
  rw [LexRes.map_eq_ok] at h
  obtain ⟨a, -, ha⟩ := h
  simp at ha

theorem parse_string_ne_eof {l t m} (h : parse_string l = .ok (t, m)) : t ≠ .EOF := by
  intro hteq
  subst hteq
  simp only [parse_string] at h
  rw [LexRes.map_eq_ok] at h
  obtain ⟨a, -, ha⟩ := h
  simp at ha

theorem parse_regular_ne_eof {l t m} (h : parse_regular l = .ok (t, m)) : t ≠ .EOF := by
  intro hteq
  subst hteq
  simp only [parse_regular] at h
  split at h
  · split at h <;> simp at h
  · simp at h
  · simp at h

theorem template_loop_ne_eof (is_head : Bool) (fuel : Nat) :
    ∀ (l : Lexer) {t m}, template_loop is_head fuel l = .ok (t, m) → t ≠ .EOF := by
  induction fuel with
  | zero => intro l t m h; simp [template_loop] at h
  | succ fuel ih =>
    intro l t m h hteq
    subst hteq
    rw [template_loop] at h
    split at h
    · cases is_head <;> simp at h
    · split at h
      · cases is_head <;> simp at h
      · split at h
        · exact ih _ h rfl
        · simp at h
        · simp at h

theorem parse_template_ne_eof {l t m} (h : parse_template l = .ok (t, m)) : t ≠ .EOF := by
  simp only [parse_template] at h
  exact template_loop_ne_eof _ _ _ h

theorem scan_hash_slash_dot_ne_eof {c l r m} (hp : scan_hash_slash_dot c l = some r)
    (h : r = .ok (Token.EOF, m)) : False := by
  subst h
  unfold scan_hash_slash_dot at hp
  repeat' (first | split at hp | simp only [] at hp)
  all_goals first
    | exact absurd rfl (parse_hashbang_ne_eof (Option.some.inj hp))
    | exact absurd rfl (parse_private_identifier_ne_eof (Option.some.inj hp))
    | exact absurd rfl (parse_comment_ne_eof (Option.some.inj hp))
    | exact absurd rfl (parse_regular_ne_eof (Option.some.inj hp))
    | exact absurd rfl (parse_number_ne_eof (Option.some.inj hp))
    | simp [operatornext] at hp

theorem scan_operators_cmp_ne_eof {c l r m} (hp : scan_operators_cmp c l = some r)
    (h : r = .ok (Token.EOF, m)) : False := by
  subst h
  unfold scan_operators_cmp at hp
  repeat' (first | split at hp | simp only [] at hp)
  all_goals simp at hp

theorem scan_operators_arith_ne_eof {c l r m} (hp : scan_operators_arith c l = some r)
    (h : r = .ok (Token.EOF, m)) : False := by
  subst h
  unfold scan_operators_arith at hp
  repeat' (first | split at hp | simp only [] at hp)
  all_goals simp at hp

theorem scan_operators_logic_ne_eof {c l r m} (hp : scan_operators_logic c l = some r)
    (h : r = .ok (Token.EOF, m)) : False := by
  subst h
  unfold scan_operators_logic at hp
  repeat' (first | split at hp | simp only [] at hp)
  all_goals simp at hp

theorem scan_operators_ne_eof {c l r m} (hp : scan_operators c l = some r)
    (h : r = .ok (Token.EOF, m)) : False := by
  unfold scan_operators at hp
  rcases h1 : scan_operators_cmp c l with _ | r1
  · simp only [h1] at hp
    rcases h2 : scan_operators_arith c l with _ | r2
    · simp only [h2] at hp
      exact scan_operators_logic_ne_eof hp h
    · simp only [h2] at hp
      exact scan_operators_arith_ne_eof h2 (by rw [Option.some.inj hp]; exact h)
  · simp only [h1] at hp
    exact scan_operators_cmp_ne_eof h1 (by rw [Option.some.inj hp]; exact h)

theorem scan_literals_braces_ne_eof {c l r m} (hp : scan_literals_braces c l = some r)
    (h : r = .ok (Token.EOF, m)) : False := by
  subst h
  unfold scan_literals_braces at hp
  repeat' (first | split at hp | simp only [] at hp)
  all_goals first
    | exact absurd rfl (parse_string_ne_eof (Option.some.inj hp))
    | exact absurd rfl (parse_template_ne_eof (Option.some.inj hp))
    | simp [operatornext] at hp

theorem scan_loop_eof (fuel : Nat) :
    ∀ (l m : Lexer), scan_loop fuel l = .ok (Token.EOF, m) →
      m.input = [] ∧ m.buf = l.buf := by
  induction fuel with
  | zero => intro l m h; simp [scan_loop] at h
  | succ fuel ih =>
    intro l m h
    rw [scan_loop] at h
    rcases hc : current l with _ | c
    · rw [hc] at h
      simp at h
      obtain ⟨rfl⟩ := h
      exact ⟨(current_none_iff l).mp hc, rfl⟩
    · rw [hc] at h
      rcases hp : scan_hash_slash_dot c l with _ | r
      · rcases ho : scan_operators c l with _ | r
        · rcases hl : scan_literals_braces c l with _ | r
          · simp only [hc, hp, ho, hl] at h
            split at h
            · obtain ⟨h1, h2⟩ := ih _ _ h
              exact ⟨h1, h2.trans (newline_buf l)⟩
            · split at h
              · obtain ⟨h1, h2⟩ := ih _ _ h
                exact ⟨h1, h2.trans (next_buf 1 l)⟩
              · split at h
                · exact absurd rfl (parse_identifier_name_ne_eof h)
                · split at h
                  · exact absurd rfl (parse_number_ne_eof h)
                  · simp [operatornext] at h
          · simp only [hc, hp, ho, hl] at h
            exact absurd hl (by rw [h]; exact fun hl2 => scan_literals_braces_ne_eof hl2 rfl)
        · simp only [hc, hp, ho] at h
          exact absurd ho (by rw [h]; exact fun ho2 => scan_operators_ne_eof ho2 rfl)
      · simp only [hc, hp] at h
        exact absurd hp (by rw [h]; exact fun hp2 => scan_hash_slash_dot_ne_eof hp2 rfl)

/-- C7: once `next_token` has produced the end-of-input token, every further
call succeeds, produces the end-of-input token again, and leaves the scanner
state unchanged (the cursor rests at the end of input). -/
theorem C7_eof_idempotent :
    ∀ (l m : Lexer), next_token l = .ok m → m.tok = Token.EOF →
      next_token m = .ok m ∧ m.input = [] := by
  intro l m h htok
  unfold next_token at h
  rcases hs : scan l with ⟨t, l2⟩ | e | _
  · rw [hs] at h
    simp at h
    subst h
    simp at htok
    subst htok
    unfold scan at hs
    obtain ⟨h1, h2⟩ := scan_loop_eof _ _ _ hs
    simp at h2
    obtain ⟨li, lb, ll, lo, lt, lp⟩ := l2
    simp at h1 h2
    subst h1
    subst h2
    refine ⟨?_, rfl⟩
    simp [next_token, scan, scan_loop, current]
  · rw [hs] at h
    simp at h
  · rw [hs] at h
    simp at h

theorem C7_witness :
    next_token { input := [], buf := [], line := 1, off := 2, tok := Token.EOF, tmpl := [] } =
      .ok { input := [], buf := [], line := 1, off := 2, tok := Token.EOF, tmpl := [] } ∧
    ({ input := [], buf := [], line := 1, off := 2, tok := Token.EOF, tmpl := [] } : Lexer).input = [] :=
  C7_eof_idempotent (Lexer.new "") _ (by decide) rfl

end Qjs

namespace Qjs


theorem savecurrent_input : ∀ (n : Nat) (l : Lexer), (savecurrent n l).input = l.input.drop n := by
  intro n
  induction n with
  | zero => intro l; simp [savecurrent]
  | succ n ih =>
    intro l
    rw [savecurrent, ih]
    cases hc : current l <;> simp [next, save, List.drop_drop, Nat.add_comm]

theorem num_arms_mark_go {c : Char} {l : Lexer} {f : NumFlags} {l2 : Lexer} {f2 : NumFlags}
    (hne : l.input ≠ []) (hp : num_arms_mark c l f = some (.go l2 f2)) :
    l2.input.length < l.input.length := by
  have hlen : 1 ≤ l.input.length := by
    rcases hi : l.input with _ | ⟨a, as⟩
    · exact absurd hi hne
    · simp [hi]
  unfold num_arms_mark at hp
  repeat' (first | split at hp | simp only [] at hp)
  all_goals simp at hp
  all_goals (rcases hp with ⟨h1, -⟩; rw [← h1]; simp [savecurrent_input, savenext, next, save]; omega)

theorem num_arms_sep_go {c : Char} {l : Lexer} {f : NumFlags} {l2 : Lexer} {f2 : NumFlags}
    (hne : l.input ≠ []) (hp : num_arms_sep c l f = some (.go l2 f2)) :
    l2.input.length < l.input.length := by
  have hlen : 1 ≤ l.input.length := by
    rcases hi : l.input with _ | ⟨a, as⟩
    · exact absurd hi hne
    · simp [hi]
  unfold num_arms_sep at hp
  repeat' (first | split at hp | simp only [] at hp)
  all_goals simp at hp
  all_goals (rcases hp with ⟨h1, -⟩; rw [← h1]; simp [savecurrent_input, savenext, next, save]; omega)

theorem num_arms_digit_go {c : Char} {l : Lexer} {f : NumFlags} {l2 : Lexer} {f2 : NumFlags}
    (hne : l.input ≠ []) (hp : num_arms_digit c l f = some (.go l2 f2)) :
    l2.input.length < l.input.length := by
  have hlen : 1 ≤ l.input.length := by
    rcases hi : l.input with _ | ⟨a, as⟩
    · exact absurd hi hne
    · simp [hi]
  unfold num_arms_digit at hp
  repeat' (first | split at hp | simp only [] at hp)
  all_goals simp at hp
  all_goals (rcases hp with ⟨h1, -⟩; rw [← h1]; simp [savecurrent_input, savenext, next, save]; omega)

theorem LexRes.isOk_iff {α : Type} {r : LexRes α} : r.isOk = true ↔ ∃ a, r = .ok a := by
  cases r <;> simp [LexRes.isOk]

theorem num_loop_isOk : ∀ (fuel : Nat) (l : Lexer) (f : NumFlags), l.input.length < fuel →
    (num_loop fuel l f).isOk = true := by
  intro fuel
  induction fuel with
  | zero => intro l f h; omega
  | succ fuel ih =>
    intro l f h
    rw [num_loop]
    rcases hc : current l with _ | c
    · rfl
    · have hne : l.input ≠ [] := by
        intro he
        rw [current, he] at hc
        simp at hc
      rcases hm : num_arms_mark c l f with _ | ⟨l2, f2⟩ | l2
      · rcases hs : num_arms_sep c l f with _ | ⟨l2, f2⟩ | l2
        · rcases hd : num_arms_digit c l f with _ | ⟨l2, f2⟩ | l2
          · simp only [hm, hs, hd]
            rfl
          · simp only [hm, hs, hd]
            apply ih
            have := num_arms_digit_go hne hd
            omega
          · simp only [hm, hs, hd]
            rfl
        · simp only [hm, hs]
          apply ih
          have := num_arms_sep_go hne hs
          omega
        · simp only [hm, hs]
          rfl
      · simp only [hm]
        apply ih
        have := num_arms_mark_go hne hm
        omega
      · simp only [hm]
        rfl


/-- C9: the number sub-scanner is infallible — for every scanner state it
returns `Ok` with a `Number` token (never a lexical error); a code point that
does not fit the current numeric form simply ends the token, and the remaining
characters are scanned as separate subsequent tokens (`0b102`, `0o128`,
`1.5n`). -/
theorem C9_parse_number_infallible :
    (∀ l : Lexer, ∃ (s : String) (l2 : Lexer), parse_number l = .ok (.Number s, l2)) ∧
    tokenizeN "0b102" 3 = [.ok (.Number "0b10"), .ok (.Number "2"), .ok .EOF] ∧
    tokenizeN "0o128" 3 = [.ok (.Number "0o12"), .ok (.Number "8"), .ok .EOF] ∧
    tokenizeN "1.5n" 3 = [.ok (.Number "1.5"), .ok (.IdentifierName "n"), .ok .EOF] := by
  refine ⟨?_, by decide, by decide, by decide⟩
  intro l
  simp only [parse_number]
  obtain ⟨l2, h2⟩ := LexRes.isOk_iff.mp
    (num_loop_isOk ((parse_number_init l).1.input.length + 1)
      (parse_number_init l).1 (parse_number_init l).2 (Nat.lt_succ_self _))
  rw [h2]
  exact ⟨String.mk l2.buf, l2, rfl⟩


end Qjs

namespace Qjs

/-- C1 counterexample: with the retained token being the keyword `this`, a
following `/a/` is scanned as a regular-expression literal, not as the
division operator (nor `/=`), contradicting the claim that every keyword
blocks regex mode. -/
theorem C1_counterexample :
    scanTok { input := "/a/".toList, buf := [], line := 1, off := 2,
              tok := Token.Kw Kw.This, tmpl := [] } = .ok (Token.Regular "a") ∧
    scanTok { input := "/a/".toList, buf := [], line := 1, off := 2,
              tok := Token.Kw Kw.This, tmpl := [] } ≠ .ok (Token.Operator '/') ∧
    scanTok { input := "/a/".toList, buf := [], line := 1, off := 2,
              tok := Token.Kw Kw.This, tmpl := [] } ≠ .ok (Token.Fixed Fixed.DivAssign) := by
  refine ⟨by decide, by decide, by decide⟩

/-- C1 (amended): when the dispatch loop meets a `/` that does not start a
comment, it scans a regular expression if and only if the retained current
token is none of `Number`, `IdentifierName`, `Str`, `Operator(')')`,
`Operator(']')`; keyword tokens are distinct variants outside this set, so
after a keyword a `/` starts a regex. When the retained token IS in the set,
`/=` yields the divide-assign token and `/` the single-character division
operator. -/
theorem C1_slash_dispatch_amended (fuel : Nat) (l : Lexer) (h : current l = some '/')
    (hs : lookahead l ≠ some '*') (hd : lookahead l ≠ some '/') :
    (prev_blocks_regex l.tok = false → scan_loop (fuel + 1) l = parse_regular l)
    ∧ (prev_blocks_regex l.tok = true → lookahead l = some '=' →
        scan_loop (fuel + 1) l = .ok (.Fixed .DivAssign, next 2 l))
    ∧ (prev_blocks_regex l.tok = true → lookahead l ≠ some '=' →
        scan_loop (fuel + 1) l = .ok (.Operator '/', next 1 l))
    ∧ (prev_blocks_regex l.tok = true ↔
        (∃ s, l.tok = .Number s) ∨ (∃ s, l.tok = .IdentifierName s)
        ∨ (∃ s, l.tok = .Str s) ∨ l.tok = .Operator ')' ∨ l.tok = .Operator ']') := by
  refine ⟨?_, ?_, ?_, ?_⟩
  · intro hb
    rw [scan_loop, h]
    simp [scan_hash_slash_dot, hs, hd, hb]
  · intro hb he
    rw [scan_loop, h]
    simp [scan_hash_slash_dot, hs, hd, hb, he]
  · intro hb he
    rw [scan_loop, h]
    simp [scan_hash_slash_dot, scan_operators, scan_operators_cmp, scan_operators_arith,
      scan_operators_logic, scan_literals_braces, hs, hd, hb, he, is_line_terminator,
      is_whitespace, rust_char_is_whitespace, is_id_start, operatornext]
  · cases htok : l.tok <;> simp [prev_blocks_regex]

theorem C1_witness :
    scan_loop 43 { input := "/a/".toList, buf := [], line := 1, off := 2,
                   tok := Token.Kw Kw.This, tmpl := [] } =
      parse_regular { input := "/a/".toList, buf := [], line := 1, off := 2,
                      tok := Token.Kw Kw.This, tmpl := [] } :=
  (C1_slash_dispatch_amended 42
    { input := "/a/".toList, buf := [], line := 1, off := 2,
      tok := Token.Kw Kw.This, tmpl := [] }
    (by decide) (by decide) (by decide)).1 (by decide)

/-- C6 counterexample: scanning `}` with an empty template nesting stack
succeeds and yields the ordinary single-character operator token, not a
lexical error. -/
theorem C6_counterexample :
    tokenizeN "\x7d" 2 = [.ok (.Operator '\x7d'), .ok .EOF] := by decide

/-- C6 (amended): a `}` scanned while the template nesting stack is empty is
NOT a lexical error: the dispatch's `}` arm is guarded by the stack being
non-empty, so the character falls through to the single-character-operator
catch-all and is returned as `Operator('}')`. -/
theorem C6_brace_outside_template_amended (fuel : Nat) (l : Lexer)
    (h : current l = some '\x7d') (h2 : l.tmpl = []) :
    scan_loop (fuel + 1) l = .ok (.Operator '\x7d', next 1 l) := by
  rw [scan_loop, h]
  simp [scan_hash_slash_dot, scan_operators, scan_operators_cmp, scan_operators_arith,
    scan_operators_logic, scan_literals_braces, template_in_expression, h2,
    is_line_terminator, is_whitespace, rust_char_is_whitespace, is_id_start, operatornext]

theorem C6_witness :
    scan_loop 9 { input := ['\x7d'], buf := [], line := 1, off := 2,
                  tok := Token.EOF, tmpl := [] } =
      .ok (.Operator '\x7d',
        next 1 { input := ['\x7d'], buf := [], line := 1, off := 2,
                 tok := Token.EOF, tmpl := [] }) :=
  C6_brace_outside_template_amended 8
    { input := ['\x7d'], buf := [], line := 1, off := 2, tok := Token.EOF, tmpl := [] }
    rfl rfl

end Qjs

namespace Qjs

/-- C2: on input `#x` the scanner produces `IdentifierName("#x")` — the
payload does include the leading `#`, but the token is NOT the dedicated
`PrivateIdentifier` variant that `token.rs` declares and that
`parse_private_identifier`'s own doc comment promises. -/
theorem C2_private_identifier_token :
    scanTok (Lexer.new "#x") = .ok (Token.IdentifierName "#x") ∧
    scanTok (Lexer.new "#x") ≠ .ok (Token.PrivateIdentifier "#x") := by
  refine ⟨by decide, by decide⟩

/-- C3 counterexample: scanning `0b102` does not fail — the first call to the
scanner returns a `Number` token (`0b10`), not an error. -/
theorem C3_counterexample :
    scanTok (Lexer.new "0b102") = .ok (Token.Number "0b10") := by decide

/-- C3 (amended): `0b102`, `0o128` and `1.5n` are not lexical errors: the
number scanner ends the token at the first character that does not fit the
current numeric form, and the rest of the input is scanned as separate
tokens (then end of input repeats). -/
theorem C3_malformed_numbers_amended :
    tokenizeN "0b102" 4 = [.ok (.Number "0b10"), .ok (.Number "2"), .ok .EOF, .ok .EOF] ∧
    tokenizeN "0o128" 4 = [.ok (.Number "0o12"), .ok (.Number "8"), .ok .EOF, .ok .EOF] ∧
    tokenizeN "1.5n" 4 =
      [.ok (.Number "1.5"), .ok (.IdentifierName "n"), .ok .EOF, .ok .EOF] := by
  refine ⟨by decide, by decide, by decide⟩

/-- C4: a raw (non-escaped) LF or CR inside a string literal is stored
verbatim as content and scanning succeeds — no lexical error — although the
string grammar in `parse_string`'s doc comment excludes `LineTerminator`;
LS/PS are stored verbatim as the claim says, and end of input before the
closing quote is an error. -/
theorem C4_raw_line_terminator_in_string :
    tokenizeN "'a\nb'" 2 = [.ok (.Str "a\nb"), .ok .EOF] ∧
    tokenizeN "'a\rb'" 2 = [.ok (.Str "a\rb"), .ok .EOF] ∧
    tokenizeN "'a\u2028b'" 2 = [.ok (.Str "a\u2028b"), .ok .EOF] ∧
    scanTok (Lexer.new "'abc") = .err { line := 1, off := 6 } := by
  refine ⟨by decide, by decide, by decide, by decide⟩

/-- C5: a `/` inside an open `[...]` character class terminates the regex
body scan (the `/` check precedes the class-depth bookkeeping), so `/[/]/` is
rejected with a lexical error although the regex grammar in `parse_regular`'s
doc comment allows `/` as class content; a `]` with no open class and a
properly closed class behave as the claim says. -/
theorem C5_regex_class_slash :
    scanTok (Lexer.new "/[/]/") = .err { line := 1, off := 5 } ∧
    scanTok (Lexer.new "/]/") = .err { line := 1, off := 3 } ∧
    scanTok (Lexer.new "/[a]/") = .ok (Token.Regular "[a]") := by
  refine ⟨by decide, by decide, by decide⟩

/-- C8: `is_whitespace` returns `true` on the line terminators LF, CR, LS, PS
and on NEL (U+0085), because its default arm calls Rust's
`char::is_whitespace` (the Unicode `White_Space` property, a strict superset
of the `Zs` space separators); the classifier described by the spec (and by
the function's own doc comment) returns `false` there. -/
theorem C8_is_whitespace_line_terminators :
    is_whitespace '\u000a' = true ∧ is_whitespace '\u000d' = true ∧
    is_whitespace '\u0085' = true ∧ is_whitespace '\u2028' = true ∧
    is_whitespace '\u2029' = true ∧
    spec_is_whitespace '\u000a' = false ∧ spec_is_whitespace '\u000d' = false ∧
    spec_is_whitespace '\u0085' = false ∧ spec_is_whitespace '\u2028' = false ∧
    spec_is_whitespace '\u2029' = false := by
  refine ⟨by decide, by decide, by decide, by decide, by decide, by decide, by decide,
    by decide, by decide, by decide⟩

end Qjs

namespace Qjs

theorem template_loop_head_shape (fuel : Nat) :
    ∀ (l : Lexer) {t m}, template_loop true fuel l = .ok (t, m) →
      (∃ s, t = Token.Str s) ∨ (∃ s, t = Token.TemplateHead s) := by
  induction fuel with
  | zero => intro l t m h; simp [template_loop] at h
  | succ fuel ih =>
    intro l t m h
    rw [template_loop] at h
    split at h
    · simp at h
      exact Or.inl ⟨_, h.1.symm⟩
    · split at h
      · simp at h
        exact Or.inr ⟨_, h.1.symm⟩
      · split at h
        · exact ih _ h
        · simp at h
        · simp at h

/-- C10: a template literal containing no substitution is emitted as the same
`Str` variant used for quoted string literals (a head-mode template segment
can only produce `Str` — no substitution found — or `TemplateHead`), and such
a template therefore counts as a string for the one-token-lookback rule: a
following `/` is division. -/
theorem C10_nosubst_template_is_str :
    (∀ (fuel : Nat) (l : Lexer) (t : Token) (m : Lexer),
        template_loop true fuel l = .ok (t, m) →
        (∃ s, t = Token.Str s) ∨ (∃ s, t = Token.TemplateHead s)) ∧
    tokenizeN "`abc` /2" 4 =
      [.ok (.Str "abc"), .ok (.Operator '/'), .ok (.Number "2"), .ok .EOF] :=
  ⟨fun fuel l t m h => template_loop_head_shape fuel l h, by decide⟩

theorem C10_witness :
    (∃ s, Token.Str "abc" = Token.Str s) ∨ (∃ s, Token.Str "abc" = Token.TemplateHead s) :=
  C10_nosubst_template_is_str.1 5
    { input := "abc`".toList, buf := [], line := 1, off := 3, tok := .EOF, tmpl := [] }
    (Token.Str "abc")
    { input := [], buf := "abc".toList, line := 1, off := 7, tok := .EOF, tmpl := [] }
    (by decide)

end Qjs
